import Mathlib

/-!
Verification development for the personal-finance streaming chat backend.

The definitions below are shallow embeddings of the Python source:
  * `src/api/v1/utils/helpers.py` (title synthesizer, event extraction,
    `stream_agent_response`),
  * `src/api/v1/services/chat_message_service.py`,
  * `src/api/v1/services/conversation_service.py`,
  * `src/api/v1/routes/ai.py` (`get_thread_conversation`),
  * `src/ai/tools.py` (module-level user context, `get_user_budget_rules`).

Python strings are modelled by `String`, with slicing/stripping done on the
code-point list (`String.data`), matching Python's code-point semantics.
The database session is modelled by an explicit record of rows; `uuid.uuid4`
is modelled by a deterministic fresh-name supply (its only relevant property
is freshness), and wall-clock latency is abstracted to `0`.
-/

namespace Finance

/-! ## Python string primitives -/

/-- Python `s[:n]` on code points. -/
def pyTake (s : String) (n : Nat) : String := ⟨s.data.take n⟩

/-- Python `s[n:]` on code points. -/
def pyDrop (s : String) (n : Nat) : String := ⟨s.data.drop n⟩

/-- Python `s[1:-1]` (used to peel one quote from each side). -/
def pyPeel (s : String) : String := ⟨(s.data.drop 1).dropLast⟩

/-- Python `str.strip()` (whitespace at both ends). -/
def pyStrip (s : String) : String :=
  ⟨((s.data.dropWhile Char.isWhitespace).reverse.dropWhile Char.isWhitespace).reverse⟩

/-- Python `str.lower()` restricted to ASCII case mapping. -/
def pyLower (s : String) : String := ⟨s.data.map Char.toLower⟩

/-- Python truthiness of a string: non-empty. -/
def strTruthy (s : String) : Bool := !s.isEmpty

/-- Word grouping for Python `s.split()`: `acc` holds the reversed current
word. -/
def wordsAux : List Char → List Char → List String
  | [], acc => if acc = [] then [] else [⟨acc.reverse⟩]
  | c :: rest, acc =>
      if c.isWhitespace then
        if acc = [] then wordsAux rest []
        else ⟨acc.reverse⟩ :: wordsAux rest []
      else wordsAux rest (c :: acc)

/-- Python `s.split()` : split on whitespace runs, discarding empties. -/
def pySplitWs (s : String) : List String := wordsAux s.data []

/-- Python `str.startswith`. -/
def pyStartsWith (s pre : String) : Bool := pre.data.isPrefixOf s.data

/-- Python `str.endswith`. -/
def pyEndsWith (s suf : String) : Bool := suf.data.isSuffixOf s.data

/-- Python `sub in s` (substring containment). -/
def pyContains (s sub : String) : Bool := decide (List.IsInfix sub.data s.data)

/-- Concatenation of a list of strings (Python `"".join`). -/
def concatAll : List String → String
  | [] => ""
  | s :: rest => s ++ concatAll rest

/-- Python `" ".join`. -/
def joinSpace (ws : List String) : String := String.intercalate " " ws

/-! ## Title synthesizer (`generate_conversation_title`, helpers.py:18-67)

The engine call `model.ainvoke` is opaque; it is modelled by an input
`resp : Option String` carrying the engine's response text, with `none`
meaning the call raised (the `except` path of the source). -/

/-- The post-processing pipeline of `generate_conversation_title` before the
length truncation (helpers.py:48-57): strip, peel one pair of double or
single quotes, strip a leading `title:` label. -/
def cleanTitlePre (raw : String) : String :=
  let title := pyStrip raw
  let title :=
    if pyStartsWith title "\"" && pyEndsWith title "\"" then pyPeel title else title
  let title :=
    if pyStartsWith title "'" && pyEndsWith title "'" then pyPeel title else title
  if pyStartsWith (pyLower title) "title:" then pyStrip (pyDrop title 6) else title

/-- Truncation step of `generate_conversation_title` (helpers.py:60-61). -/
def cleanTitle (raw : String) : String :=
  let title := cleanTitlePre raw
  if title.length > 200 then pyTake title 197 ++ "..." else title

/-- Fallback title from the user message (helpers.py:66-67 and 443-444):
first six whitespace-separated words, or `"New Conversation"`. -/
def fallbackTitle (user_message : String) : String :=
  let words := (pySplitWs user_message).take 6
  if words = [] then "New Conversation" else joinSpace words

/-- `generate_conversation_title` (helpers.py:18-67). `resp = none` models
the engine invocation raising; `resp = some raw` models a response whose
extracted content is `raw`. -/
def generate_conversation_title (user_message : String) (resp : Option String) :
    String :=
  match resp with
  | none => fallbackTitle user_message
  | some raw =>
      let title := cleanTitle raw
      if title = "" then "New Conversation" else title

/-! ## Engine messages and `extract_text_from_message` (helpers.py:91-155) -/

/-- A tool-call descriptor carried by an engine message; only its `name`
field is read by the source (helpers.py:201-206). -/
structure ToolCallRef where
  name : String
deriving DecidableEq, Repr

/-- One element of a list-shaped message content (helpers.py:137-149).
`dict ty text` models a dict item with optional `"type"` and `"text"`
entries (`text` already passed through `str`); `str` a plain string item;
`other` any other item (skipped by the source). -/
inductive ContentItem
  | dict (ty : Option String) (text : Option String)
  | str (s : String)
  | other
deriving DecidableEq, Repr

/-- The `content` attribute of an engine message chunk. `other` models a
non-str, non-list content object: `repr` is its `str()` rendering and
`truthy` its Python truth value. -/
inductive MsgContent
  | str (s : String)
  | items (l : List ContentItem)
  | other (repr : String) (truthy : Bool)
deriving DecidableEq, Repr

/-- An engine message chunk as observed by the multiplexer.
`tool_calls = none` models a missing attribute, `some []` a falsy one;
`type_name` is `message.__class__.__name__`; `content = none` models a
missing `content` attribute. -/
structure EngineMessage where
  tool_calls : Option (List ToolCallRef) := none
  type_name : String := "AIMessageChunk"
  content : Option MsgContent := none
deriving DecidableEq, Repr

/-- Python truthiness of `message.tool_calls` guarded by `hasattr`
(helpers.py:123). -/
def toolCallsTruthy (m : EngineMessage) : Bool :=
  match m.tool_calls with
  | some (_ :: _) => true
  | _ => false

/-- Python truthiness of `message_chunk.content` guarded by `hasattr`
(helpers.py:335). -/
def contentTruthy : Option MsgContent → Bool
  | none => false
  | some (.str s) => s ≠ ""
  | some (.items l) => l ≠ []
  | some (.other _ t) => t

/-- Text contributed by one list item (helpers.py:138-149). -/
def extractItem : ContentItem → Option String
  | .dict ty text =>
      if ty = some "text" then
        let t := text.getD ""
        if strTruthy (pyStrip t) then some t else none
      else
        match text with
        | some t => if strTruthy (pyStrip t) then some t else none
        | none => none
  | .str s => if strTruthy (pyStrip s) then some s else none
  | .other => none

/-- `extract_text_from_message` (helpers.py:91-155). Returns `none` for
tool-call messages, Tool/Function message classes, and empty or
whitespace-only content. -/
def extract_text_from_message (m : EngineMessage) : Option String :=
  if toolCallsTruthy m then none
  else if pyContains m.type_name "Tool" || pyContains m.type_name "Function" then
    none
  else
    match m.content with
    | none => none
    | some (.str s) => if strTruthy (pyStrip s) then some s else none
    | some (.items l) =>
        let result := concatAll (l.filterMap extractItem)
        if strTruthy (pyStrip result) then some result else none
    | some (.other r _) => if strTruthy (pyStrip r) then some r else none

/-! ## Tool registry and `extract_tool_info` (tools.py:478-485,
helpers.py:158-229) -/

/-- `TOOL_NAMES` (tools.py:478-485). -/
def TOOL_NAMES : List String :=
  ["categorize_transaction", "create_budget_rule", "save_user_profile",
   "get_user_transactions", "get_user_budget_rules", "get_spending_summary"]

/-- `action_map.get(name, "processing")` (helpers.py:190-195). -/
def actionFor (name : String) : String :=
  if name = "categorize_transaction" then "trying to categorize transaction"
  else if name = "create_budget_rule" then "creating budget rule"
  else if name = "save_user_profile" then "saving user profile"
  else "processing"

/-- The label `f"{name}:: {action}"` built by `extract_tool_info`. -/
def toolLabel (name : String) : String := name ++ ":: " ++ actionFor name

/-- A message inside `node_data["messages"]`; only `tool_calls` is read. -/
structure NodeMsg where
  tool_calls : Option (List ToolCallRef) := none
deriving DecidableEq, Repr

/-- The value attached to a node in an `updates` event.  `nondict` models a
non-dict value (skipped by the stream loop, helpers.py:369-370); `dict`
carries the optional `"messages"` entry. -/
inductive NodeData
  | dict (messages : Option (List NodeMsg))
  | nondict
deriving DecidableEq, Repr

/-- Tool-call names of one node message, in order; empty when `tool_calls`
is absent or falsy (helpers.py:200). -/
def nodeMsgNames (m : NodeMsg) : List String :=
  match m.tool_calls with
  | some (c :: cs) => (c :: cs).map ToolCallRef.name
  | _ => []

/-- First name in the list that is in the registry, labelled
(helpers.py:199-215). -/
def firstRegistered : List String → Option String
  | [] => none
  | n :: rest =>
      if TOOL_NAMES.contains n then some (toolLabel n) else firstRegistered rest

/-- First registry name that occurs as a substring of the (lowered) node
name, labelled (helpers.py:220-227). -/
def firstSubName (low : String) : List String → Option String
  | [] => none
  | t :: rest =>
      if pyContains low t then some (toolLabel t) else firstSubName low rest

/-- `extract_tool_info` (helpers.py:158-229), on the `"messages"` entry of a
dict-shaped `node_data`. -/
def extract_tool_info (node_name : String) (messages : Option (List NodeMsg)) :
    Option String :=
  if TOOL_NAMES.contains node_name then some (toolLabel node_name)
  else
    let fromMsgs :=
      match messages with
      | none => none
      | some msgs => firstRegistered (msgs.map nodeMsgNames).flatten
    match fromMsgs with
    | some r => some r
    | none =>
        if pyContains (pyLower node_name) "tools"
            || TOOL_NAMES.any (fun t => pyContains (pyLower node_name) t) then
          firstSubName (pyLower node_name) TOOL_NAMES
        else none

/-! ## Persistence model (models/chat_message.py, models/conversation.py)

Row ids are modelled by a single `Nat` supply (`DB.nextId`); row order in
the lists is insertion order, which models the `created_at` ordering used
by the read queries. -/

/-- `MessageRole` (chat_message.py). -/
inductive MessageRole
  | user | assistant | system | tool
deriving DecidableEq, Repr

/-- `MessageStatus` (chat_message.py). -/
inductive MessageStatus
  | pending | completed | error | cancelled
deriving DecidableEq, Repr

/-- `FinishReason` (chat_message.py). -/
inductive FinishReason
  | stop | length | tool_calls | content_filter | error
deriving DecidableEq, Repr

/-- The `message_metadata` JSONB blob.  The source only ever stores the keys
`"tool_calls"` (a list of `{"node": ..., "info": ...}` dicts) and
`"error"`; a key is present iff the field is `some`. -/
structure Metadata where
  tool_calls : Option (List (String × String)) := none
  error : Option String := none
deriving DecidableEq, Repr

/-- Python `{**old, **new}`: keys of `new` overwrite, others are kept
(chat_message_service.py:144-148). -/
def Metadata.merge (old new : Metadata) : Metadata :=
  { tool_calls := new.tool_calls <|> old.tool_calls,
    error := new.error <|> old.error }

/-- A `conversations` row. -/
structure ConversationRec where
  id : Nat
  user_id : String
  thread_id : String
  title : Option String
deriving DecidableEq, Repr

/-- A `chat_messages` row (the fields the claims touch). -/
structure MessageRec where
  id : Nat
  conversation_id : Nat
  parent_message_id : Option Nat
  role : MessageRole
  content : String
  status : MessageStatus
  finish_reason : Option FinishReason
  latency_ms : Option Nat
  metadata : Option Metadata
deriving DecidableEq, Repr

/-- The durable store: rows in insertion order plus the fresh-id supply. -/
structure DB where
  conversations : List ConversationRec := []
  messages : List MessageRec := []
  nextId : Nat := 0
deriving DecidableEq, Repr

/-- Python truthiness of `conversation.title` (`None` and `""` falsy). -/
def titleTruthy : Option String → Bool
  | some t => t ≠ ""
  | none => false

/-- `conversation.title or "New Conversation"` (helpers.py:463,490). -/
def titleOr (t : Option String) : String :=
  match t with
  | some s => if s = "" then "New Conversation" else s
  | none => "New Conversation"

/-! ### `ConversationService` (conversation_service.py) -/

/-- `create_conversation` (conversation_service.py:14-52). -/
def create_conversation (db : DB) (user_id thread_id : String)
    (title : Option String) : ConversationRec × DB :=
  let c : ConversationRec :=
    { id := db.nextId, user_id := user_id, thread_id := thread_id, title := title }
  (c, { db with conversations := db.conversations ++ [c], nextId := db.nextId + 1 })

/-- `get_conversation_by_thread_id` (conversation_service.py:54-73). -/
def get_conversation_by_thread_id (db : DB) (user_id thread_id : String) :
    Option ConversationRec :=
  db.conversations.find? (fun c => c.user_id = user_id ∧ c.thread_id = thread_id)

/-- `get_conversation_by_id` (conversation_service.py:75-94): id lookup
scoped to the requesting user. -/
def get_conversation_by_id (db : DB) (conversation_id : Nat) (user_id : String) :
    Option ConversationRec :=
  db.conversations.find? (fun c => c.id = conversation_id ∧ c.user_id = user_id)

/-- `update_conversation_title` (conversation_service.py:96-126): finds by
id only (no user scope) and overwrites the title unconditionally. -/
def update_conversation_title (db : DB) (conversation_id : Nat) (title : String) :
    Option ConversationRec × DB :=
  match db.conversations.find? (fun c => c.id = conversation_id) with
  | none => (none, db)
  | some c =>
      let c' := { c with title := some title }
      (some c',
       { db with
          conversations :=
            db.conversations.map
              (fun x => if x.id = conversation_id then { x with title := some title } else x) })

/-! ### `ChatMessageService` (chat_message_service.py) -/

/-- `create_message` (chat_message_service.py:21-90). -/
def create_message (db : DB) (conversation_id : Nat) (role : MessageRole)
    (content : String) (status : MessageStatus)
    (finish_reason : Option FinishReason := none)
    (latency_ms : Option Nat := none)
    (message_metadata : Option Metadata := none)
    (parent_message_id : Option Nat := none) : MessageRec × DB :=
  let m : MessageRec :=
    { id := db.nextId, conversation_id := conversation_id,
      parent_message_id := parent_message_id, role := role, content := content,
      status := status, finish_reason := finish_reason, latency_ms := latency_ms,
      metadata := message_metadata }
  (m, { db with messages := db.messages ++ [m], nextId := db.nextId + 1 })

/-- The per-row effect of `update_message` (chat_message_service.py:128-150):
each `None` argument leaves the field untouched; metadata is shallow-merged
into an existing dict and stored as-is otherwise. -/
def applyUpdate (content : Option String) (status : Option MessageStatus)
    (finish_reason : Option FinishReason) (latency_ms : Option Nat)
    (message_metadata : Option Metadata) (m : MessageRec) : MessageRec :=
  { m with
    content := content.getD m.content,
    status := status.getD m.status,
    finish_reason := match finish_reason with
      | some f => some f
      | none => m.finish_reason,
    latency_ms := match latency_ms with
      | some l => some l
      | none => m.latency_ms,
    metadata := match message_metadata with
      | some mm =>
          match m.metadata with
          | some old => some (old.merge mm)
          | none => some mm
      | none => m.metadata }

/-- `update_message` (chat_message_service.py:92-157): returns `none` and
leaves the store unchanged when the id is absent. -/
def update_message (db : DB) (message_id : Nat) (content : Option String := none)
    (status : Option MessageStatus := none)
    (finish_reason : Option FinishReason := none)
    (latency_ms : Option Nat := none)
    (message_metadata : Option Metadata := none) : Option MessageRec × DB :=
  match db.messages.find? (fun m => m.id = message_id) with
  | none => (none, db)
  | some m =>
      let m' := applyUpdate content status finish_reason latency_ms message_metadata m
      (some m',
       { db with
          messages :=
            db.messages.map
              (fun x =>
                if x.id = message_id then
                  applyUpdate content status finish_reason latency_ms
                    message_metadata x
                else x) })

/-- `get_conversation_messages` (chat_message_service.py:159-192): messages
of the conversation joined against a conversation row owned by the
requesting user, in insertion (creation-time) order. -/
def get_conversation_messages (db : DB) (conversation_id : Nat)
    (user_id : String) (limit : Option Nat := none) : List MessageRec :=
  let rows :=
    db.messages.filter
      (fun m =>
        m.conversation_id = conversation_id
          ∧ (db.conversations.any
              (fun c => c.id = m.conversation_id ∧ c.user_id = user_id)))
  match limit with
  | some n => rows.take n
  | none => rows

/-! ## Module-level tool context (tools.py:17-33, 370-389)

`_user_context` is a module-level dict shared by every request. -/

/-- The module-level `_user_context` dict: `user_id = none` models the
`"user_id"` key being absent. -/
structure GlobalCtx where
  user_id : Option String := none
deriving DecidableEq, Repr

/-- `set_user_context` (tools.py:22-26): overwrites the shared module-level
context. -/
def set_user_context (uid : String) (_g : GlobalCtx) : GlobalCtx :=
  { user_id := some uid }

/-- A `budget_rules` row restricted to the fields the tool reads. -/
structure BudgetRuleRec where
  user_id : String
  category : String
deriving DecidableEq, Repr

/-- `budget_service.get_user_budget_rules` (budget_service.py:68-71). -/
def get_user_budget_rules (rules : List BudgetRuleRec) (user_id : String) :
    List BudgetRuleRec :=
  rules.filter (fun r => r.user_id = user_id)

/-- The user-resolution step of the `get_user_budget_rules` tool
(tools.py:370-389): the identity governing the read comes from the shared
module-level context, not from any per-request argument. -/
def tool_get_user_budget_rules (g : GlobalCtx) (rules : List BudgetRuleRec) :
    Except String (List BudgetRuleRec) :=
  match g.user_id with
  | none => .error "Error: User context not set. Please authenticate first."
  | some uid => .ok (get_user_budget_rules rules uid)

/-! ## Stream assembler (`stream_agent_response`, helpers.py:232-506)

The engine feed `agent.astream(...)` is opaque; it is modelled by a list of
classified events plus an optional error raised after the last event
(`feedError`).  `uuid.uuid4()` is modelled by a deterministic fresh supply
whose only used property is freshness, and `time.time()` latency by `0`.
The single-shot title call inside `generate_conversation_title` is the
`titleResp` input.  `errUpdateFails` / `errLookupFails` model the store
raising inside the two bare `try/except` blocks of the error path
(helpers.py:470-479 and 484-497). -/

/-- One 2-tuple event from `agent.astream` with
`stream_mode=["updates","custom","messages"]` (helpers.py:324-330). -/
inductive EngineEvent
  | message (chunk : EngineMessage)
  | updates (data : List (String × NodeData))
  | custom (payload : String)
deriving DecidableEq, Repr

/-- A client-facing SSE event (the dict passed to `format_sse_event`). -/
inductive SSE
  | text (content : MsgContent)
  | tool_update (content : String)
  | custom (payload : String)
  | done (thread_id title : String)
  | error (message thread_id title : String)
deriving DecidableEq, Repr

/-- `format_sse_event` (helpers.py:70-88), on an already-serialized JSON
body. -/
def format_sse_event (json_data : String) : String :=
  "data: " ++ json_data ++ "\n\n"

/-- Model of `str(uuid.uuid4())`: a fresh non-empty name per counter
value. -/
def uuidString (n : Nat) : String := ⟨List.replicate (n + 1) 'u'⟩

/-- Shared mutable world: the store, the uuid supply and the module-level
tool context. -/
structure WorldState where
  db : DB := {}
  uuidCtr : Nat := 0
  ctx : GlobalCtx := {}
deriving DecidableEq, Repr

/-- Per-request accumulator of the stream loop (`assistant_content`,
`assistant_message_id`, `tool_calls`, the events yielded so far, and the
store). -/
structure StreamAcc where
  content : String := ""
  msgId : Option Nat := none
  toolCalls : List (String × String) := []
  events : List SSE := []
  db : DB
deriving DecidableEq, Repr

/-- One node of an `updates` event (helpers.py:367-378): non-dict node
data is skipped; a recognized tool yields a tracked tool call and a
`tool_update` event. -/
def updateStep (a : StreamAcc) (p : String × NodeData) : StreamAcc :=
  match p.2 with
  | .nondict => a
  | .dict msgs =>
      match extract_tool_info p.1 msgs with
      | some info =>
          { a with toolCalls := a.toolCalls ++ [(p.1, info)],
                   events := a.events ++ [SSE.tool_update info] }
      | none => a

/-- One iteration of the `async for` loop (helpers.py:324-382). -/
def streamStep (conversationId userMsgId : Nat) (acc : StreamAcc)
    (e : EngineEvent) : StreamAcc :=
  match e with
  | .message chunk =>
      match chunk.content with
      | none => acc
      | some c =>
          if contentTruthy (some c) then
            let acc1 :=
              match extract_text_from_message chunk with
              | some t =>
                  let newContent := acc.content ++ t
                  match acc.msgId with
                  | none =>
                      let md := create_message acc.db conversationId .assistant
                        newContent .pending none none none (some userMsgId)
                      { acc with content := newContent, msgId := some md.1.id,
                                 db := md.2 }
                  | some mid =>
                      let ud := update_message acc.db mid (some newContent)
                        none none none none
                      { acc with content := newContent, db := ud.2 }
              | none => acc
            { acc1 with events := acc1.events ++ [SSE.text c] }
          else acc
  | .updates pairs => pairs.foldl updateStep acc
  | .custom payload => { acc with events := acc.events ++ [SSE.custom payload] }

/-- Conversation resolution at the top of `stream_agent_response`
(helpers.py:283-306). -/
structure ResolveResult where
  conv : ConversationRec
  isNew : Bool
  final_thread_id : String
  w : WorldState
deriving DecidableEq, Repr

/-- `final_thread_id = thread_id or str(uuid.uuid4())` followed by the
get-or-create block (helpers.py:283-306). -/
def resolve_or_create (w : WorldState) (user_id thread_id : String) :
    ResolveResult :=
  let p :=
    if thread_id ≠ "" then (thread_id, w)
    else (uuidString w.uuidCtr, { w with uuidCtr := w.uuidCtr + 1 })
  let existing :=
    if thread_id ≠ "" then get_conversation_by_thread_id p.2.db user_id thread_id
    else none
  match existing with
  | some c => ⟨c, false, p.1, p.2⟩
  | none =>
      let cd := create_conversation p.2.db user_id p.1 none
      ⟨cd.1, true, p.1, { p.2 with db := cd.2 }⟩

/-- The guarded automatic title-set path (helpers.py:430-447): set the
title only when the conversation is visible to the user and its title is
currently unset. -/
def set_title_if_unset (db : DB) (conversation_id : Nat)
    (user_id title : String) : DB :=
  match get_conversation_by_id db conversation_id user_id with
  | some c =>
      if titleTruthy c.title then db
      else (update_conversation_title db conversation_id title).2
  | none => db

/-- Feed-completion path (helpers.py:384-466): finalize the assistant
message, run the once-only title generation, reload the conversation and
emit the terminal `done` event. -/
def finalizeOk (conversationId userMsgId : Nat) (isNew : Bool)
    (ftid user_id msgText : String) (titleResp : Option String)
    (acc : StreamAcc) : List SSE × DB :=
  let db1 :=
    match acc.msgId with
    | some mid =>
        let mm : Option Metadata :=
          if acc.toolCalls ≠ [] then some ⟨some acc.toolCalls, none⟩ else none
        (update_message acc.db mid none (some .completed) (some .stop)
          (some 0) mm).2
    | none =>
        if acc.content ≠ "" then
          (create_message acc.db conversationId .assistant acc.content
            .completed (some .stop) (some 0)
            (if acc.toolCalls ≠ [] then some ⟨some acc.toolCalls, none⟩ else none)
            (some userMsgId)).2
        else acc.db
  let db2 :=
    if isNew ∧ acc.content ≠ "" then
      set_title_if_unset db1 conversationId user_id
        (generate_conversation_title msgText titleResp)
    else db1
  let conv2 := get_conversation_by_id db2 conversationId user_id
  let tid := match conv2 with | some c => c.thread_id | none => ftid
  let ttl := match conv2 with | some c => titleOr c.title | none => "New Conversation"
  (acc.events ++ [SSE.done tid ttl], db2)

/-- Feed-failure path (helpers.py:467-503): best-effort error recording
(its own failure swallowed), best-effort context lookup, terminal `error`
event. -/
def finalizeErr (err user_id ftid : String) (conversationId : Nat)
    (errUpdateFails errLookupFails : Bool) (acc : StreamAcc) :
    List SSE × DB :=
  let db1 :=
    match acc.msgId with
    | some mid =>
        if errUpdateFails then acc.db
        else (update_message acc.db mid none (some .error) (some .error)
          none (some ⟨none, some err⟩)).2
    | none => acc.db
  let p :=
    if errLookupFails then (ftid, "New Conversation")
    else
      match get_conversation_by_id db1 conversationId user_id with
      | some c => (c.thread_id, titleOr c.title)
      | none => (ftid, "New Conversation")
  (acc.events ++ [SSE.error err p.1 p.2], db1)

/-- The inputs of one streaming request: the request fields plus the
opaque-collaborator behaviors (engine feed, engine title response, store
faults on the error path). -/
structure StreamInput where
  message : String
  thread_id : String
  user_id : String
  feed : List EngineEvent
  feedError : Option String := none
  titleResp : Option String := none
  errUpdateFails : Bool := false
  errLookupFails : Bool := false
deriving DecidableEq, Repr

/-- The conversation resolution performed by the request
(helpers.py:283-306). -/
def convResOf (inp : StreamInput) (w : WorldState) : ResolveResult :=
  resolve_or_create w inp.user_id inp.thread_id

/-- The saved user message and the store after saving it
(helpers.py:309-318). -/
def userMsgOf (inp : StreamInput) (w : WorldState) : MessageRec × DB :=
  create_message (convResOf inp w).w.db (convResOf inp w).conv.id .user
    inp.message .completed none none none none

/-- The request accumulator after the whole engine feed has been consumed
(helpers.py:324-382). -/
def streamAccOf (inp : StreamInput) (w : WorldState) : StreamAcc :=
  inp.feed.foldl
    (streamStep (convResOf inp w).conv.id (userMsgOf inp w).1.id)
    { db := (userMsgOf inp w).2 }

/-- `stream_agent_response` (helpers.py:232-506): returns the ordered list
of yielded client events and the final world state. -/
def stream_agent_response (inp : StreamInput) (w : WorldState) :
    List SSE × WorldState :=
  let r := convResOf inp w
  let w1 : WorldState :=
    { r.w with db := (userMsgOf inp w).2,
               ctx := set_user_context inp.user_id r.w.ctx }
  match inp.feedError with
  | none =>
      let ed := finalizeOk r.conv.id (userMsgOf inp w).1.id r.isNew
        r.final_thread_id inp.user_id inp.message inp.titleResp
        (streamAccOf inp w)
      (ed.1, { w1 with db := ed.2 })
  | some err =>
      let ed := finalizeErr err inp.user_id r.final_thread_id r.conv.id
        inp.errUpdateFails inp.errLookupFails (streamAccOf inp w)
      (ed.1, { w1 with db := ed.2 })

/-! ## Read route `get_thread_conversation` (routes/ai.py:60-94) -/

/-- Outcome of `GET /ai/threads/{thread_id}`. -/
inductive ThreadResult
  | notFound (detail : String)
  | ok (thread_id title : String) (messages : List MessageRec)
deriving DecidableEq, Repr

/-- The 404 detail string raised by the route (ai.py:80). -/
def threadNotFoundDetail : String :=
  "Thread not found or you don" ++ "'" ++ "t have access to it"

/-- `get_thread_conversation` (ai.py:60-94): user-scoped thread lookup,
404 on miss, else the ordered owned messages. -/
def get_thread_conversation (db : DB) (user_id thread_id : String) :
    ThreadResult :=
  match get_conversation_by_thread_id db user_id thread_id with
  | none => .notFound threadNotFoundDetail
  | some c =>
      .ok thread_id (titleOr c.title)
        (get_conversation_messages db c.id user_id none)

/-! ## Helper lemmas -/

theorem pyTake_length (s : String) (n : Nat) :
    (pyTake s n).length = min n s.length := by
  show (s.data.take n).length = min n s.data.length
  simp [List.length_take]

theorem cleanTitle_length (raw : String) : (cleanTitle raw).length ≤ 200 := by
  unfold cleanTitle
  by_cases h : (cleanTitlePre raw).length > 200
  · simp only [h, if_true]
    rw [String.length_append, pyTake_length]
    have h3 : ("..." : String).length = 3 := by decide
    omega
  · simp only [h, if_false]
    omega

theorem cleanTitle_of_long (raw : String) (h : (cleanTitlePre raw).length > 200) :
    cleanTitle raw = pyTake (cleanTitlePre raw) 197 ++ "..." := by
  unfold cleanTitle
  simp only [h, if_true]

/-! ## C9: title synthesizer post-processing -/

/-- **C9.** The title synthesizer is total and bounded: the cleaned engine
response is returned when non-empty and is at most 200 characters (long
responses are hard-truncated to 197 characters plus `"..."`); an empty
cleaned result yields the deterministic `"New Conversation"`; an engine
failure (`resp = none`) yields the deterministic fallback built from the
first six words of the user message, or `"New Conversation"` when the user
message has no words.  Being a Lean function, it never raises. -/
theorem title_synthesizer_total_bounded (u raw : String) :
    (generate_conversation_title u (some raw)).length ≤ 200
    ∧ (cleanTitle raw ≠ "" →
        generate_conversation_title u (some raw) = cleanTitle raw)
    ∧ (cleanTitle raw = "" →
        generate_conversation_title u (some raw) = "New Conversation")
    ∧ ((cleanTitlePre raw).length > 200 →
        generate_conversation_title u (some raw) =
          pyTake (cleanTitlePre raw) 197 ++ "...")
    ∧ generate_conversation_title u none = fallbackTitle u
    ∧ (pySplitWs u = [] → generate_conversation_title u none = "New Conversation") := by
  refine ⟨?_, ?_, ?_, ?_, rfl, ?_⟩
  · show (if cleanTitle raw = "" then "New Conversation" else cleanTitle raw).length ≤ 200
    by_cases h : cleanTitle raw = ""
    · simp only [h, if_true]; decide
    · simp only [h, if_false]; exact cleanTitle_length raw
  · intro h
    show (if cleanTitle raw = "" then "New Conversation" else cleanTitle raw) = _
    simp only [h, if_false]
  · intro h
    show (if cleanTitle raw = "" then "New Conversation" else cleanTitle raw) = _
    simp only [h, if_true]
  · intro h
    have hlong := cleanTitle_of_long raw h
    have hne : cleanTitle raw ≠ "" := by
      rw [hlong]
      intro hcontra
      have := congrArg String.length hcontra
      rw [String.length_append] at this
      have h3 : ("..." : String).length = 3 := by decide
      have h0 : ("" : String).length = 0 := by decide
      omega
    show (if cleanTitle raw = "" then "New Conversation" else cleanTitle raw) = _
    simp only [hne, if_false]
    exact hlong
  · intro h
    show fallbackTitle u = "New Conversation"
    unfold fallbackTitle
    simp [h]

/-- Witness for C9 at concrete inputs: an engine response wrapped in
whitespace, quotes and a `Title:` label is cleaned; an empty response and a
failing engine call fall back deterministically. -/
theorem title_synthesizer_total_bounded_witness :
    generate_conversation_title "plan my budget" (some " \"Title: Budget Help\" ")
        = "Budget Help"
      ∧ generate_conversation_title "plan my budget" (some "   ")
        = "New Conversation"
      ∧ generate_conversation_title "plan my budget" none = "plan my budget" := by
  have h := title_synthesizer_total_bounded "plan my budget" " \"Title: Budget Help\" "
  have h2 := title_synthesizer_total_bounded "plan my budget" "   "
  refine ⟨?_, ?_, ?_⟩
  · have := h.2.1 (by decide)
    rw [this]; decide
  · have := h2.2.2.1 (by decide)
    rw [this]
  · rw [h.2.2.2.2.1]; decide

/-! ## C10: user identity and the module-level tool context

`tools.py` keeps `_user_context` as a module-level dict; `set_user_context`
overwrites it for every request, so the claimed two-run noninterference
fails under interleaving. -/

/-- **C10 counterexample.** Request A (user `"u1"`) sets the context, then
request B (user `"u2"`) sets it before A's tool runs; A's
`get_user_budget_rules` invocation then reads `"u2"`'s budget rules, not
its own user's — the data a tool reads does not depend only on that
request's own user id. -/
theorem user_context_interference_cex :
    tool_get_user_budget_rules
        (set_user_context "u2" (set_user_context "u1" ({} : GlobalCtx)))
        [⟨"u1", "groceries"⟩, ⟨"u2", "rent"⟩]
      = .ok [⟨"u2", "rent"⟩]
    ∧ (Except.ok [(⟨"u2", "rent"⟩ : BudgetRuleRec)] :
          Except String (List BudgetRuleRec))
        ≠ .ok [⟨"u1", "groceries"⟩] := by
  refine ⟨rfl, fun hcontra => ?_⟩
  have := Except.ok.inj hcontra
  exact absurd this (by decide)

/-- **C10 amended.** User identity reaches tool invocations through the
shared module-level context, with last-writer-wins semantics: a tool read
is governed by the most recent `set_user_context` call (independent of any
earlier context state), so the claimed noninterference holds only when a
request's tool invocations run before any other request resets the
context. -/
theorem user_context_last_writer_wins (u : String) (g g' : GlobalCtx)
    (rules : List BudgetRuleRec) :
    tool_get_user_budget_rules (set_user_context u g) rules
        = .ok (get_user_budget_rules rules u)
    ∧ set_user_context u g = set_user_context u g' :=
  ⟨rfl, rfl⟩

/-! ## C7: step-update classification -/

theorem firstRegistered_eq_none (l : List String)
    (h : ∀ n ∈ l, TOOL_NAMES.contains n = false) : firstRegistered l = none := by
  induction l with
  | nil => rfl
  | cons n rest ih =>
      unfold firstRegistered
      rw [h n (List.mem_cons_self n rest)]
      simp only [Bool.false_eq_true, if_false]
      exact ih (fun x hx => h x (List.mem_cons_of_mem n hx))

/-- **C7 counterexample.** A tool name outside the fixed registry is
dropped, not given a `"processing"` label: a node named
`"unknown_tool_x"` whose message carries a tool call of the same
unregistered name classifies to `none`, and the stream loop emits no
`tool_update` event for it. -/
theorem unrecognized_tool_dropped_cex :
    extract_tool_info "unknown_tool_x"
        (some [{ tool_calls := some [⟨"unknown_tool_x"⟩] }]) = none
    ∧ (streamStep 0 1 { db := {} }
        (.updates [("unknown_tool_x",
          .dict (some [{ tool_calls := some [⟨"unknown_tool_x"⟩] }]))])).events
        = [] := by
  exact ⟨rfl, rfl⟩

/-- **C7 amended.** Registry tool names always classify to
`"{tool_name}:: {description}"`: the three names with specific
descriptions get them, the other registry names get the generic
`"processing"` label; but a tool name with no connection to the registry
(not a registry name, carrying no registered tool call, and whose node
name mentions neither `"tools"` nor any registry name) produces no label
at all and is dropped. -/
theorem step_update_classification (name : String)
    (msgs : Option (List NodeMsg))
    (h1 : TOOL_NAMES.contains name = false)
    (h2 : ∀ ms, msgs = some ms →
      ∀ n ∈ (ms.map nodeMsgNames).flatten, TOOL_NAMES.contains n = false)
    (h3 : pyContains (pyLower name) "tools" = false)
    (h4 : ∀ t ∈ TOOL_NAMES, pyContains (pyLower name) t = false) :
    (∀ d, extract_tool_info "categorize_transaction" d
        = some "categorize_transaction:: trying to categorize transaction")
    ∧ (∀ d, extract_tool_info "create_budget_rule" d
        = some "create_budget_rule:: creating budget rule")
    ∧ (∀ d, extract_tool_info "save_user_profile" d
        = some "save_user_profile:: saving user profile")
    ∧ (∀ d, extract_tool_info "get_user_transactions" d
        = some "get_user_transactions:: processing")
    ∧ (∀ d, extract_tool_info "get_user_budget_rules" d
        = some "get_user_budget_rules:: processing")
    ∧ (∀ d, extract_tool_info "get_spending_summary" d
        = some "get_spending_summary:: processing")
    ∧ extract_tool_info name msgs = none := by
  refine ⟨fun d => rfl, fun d => rfl, fun d => rfl, fun d => rfl, fun d => rfl,
    fun d => rfl, ?_⟩
  unfold extract_tool_info
  rw [h1]
  simp only [Bool.false_eq_true, if_false]
  have hany : TOOL_NAMES.any (fun t => pyContains (pyLower name) t) = false :=
    List.any_eq_false.mpr (fun t ht => by rw [h4 t ht]; exact Bool.false_ne_true)
  cases msgs with
  | none =>
      dsimp only
      rw [h3, hany]
      rfl
  | some ms =>
      dsimp only
      rw [firstRegistered_eq_none _ (h2 ms rfl)]
      dsimp only
      rw [h3, hany]
      rfl

/-- Witness for the amended C7 at a concrete unregistered tool name. -/
theorem step_update_classification_witness :
    extract_tool_info "emit_report"
      (some [{ tool_calls := some [⟨"emit_report"⟩] }]) = none := by
  have h := step_update_classification "emit_report"
    (some [{ tool_calls := some [⟨"emit_report"⟩] }])
    (by decide) (by intro ms hms; cases hms; decide) (by decide) (by decide)
  exact h.2.2.2.2.2.2

/-! ## C4: the guarded title setter -/

theorem find?_map_of_pred {α : Type} (g : α → α) (p : α → Bool) (l : List α)
    (hg : ∀ a, p (g a) = p a) :
    (l.map g).find? p = (l.find? p).map g := by
  induction l with
  | nil => rfl
  | cons a rest ih =>
      simp only [List.map_cons]
      cases hpa : p a with
      | true =>
          rw [List.find?_cons_of_pos _ (by rw [hg a]; exact hpa),
            List.find?_cons_of_pos _ hpa]
          rfl
      | false =>
          rw [List.find?_cons_of_neg _ (by rw [hg a, hpa]; exact Bool.false_ne_true),
            List.find?_cons_of_neg _ (by rw [hpa]; exact Bool.false_ne_true)]
          exact ih

/-- **C4.** The automatic title path sets a title only when it is unset:
starting from a conversation with no title, applying the guarded setter
with `t1` and then with `t2` (both through the same id/user) leaves the
conversation holding `t1`, and the second call is a no-op on the store. -/
theorem title_set_once (db : DB) (cid : Nat) (uid t1 t2 : String)
    (c : ConversationRec)
    (hfind : db.conversations.find? (fun x => x.id = cid) = some c)
    (hscoped : get_conversation_by_id db cid uid = some c)
    (htitle : c.title = none) (ht1 : t1 ≠ "") :
    get_conversation_by_id
        (set_title_if_unset (set_title_if_unset db cid uid t1) cid uid t2)
        cid uid
      = some { c with title := some t1 }
    ∧ set_title_if_unset (set_title_if_unset db cid uid t1) cid uid t2
      = set_title_if_unset db cid uid t1 := by
  have hcid : c.id = cid := by
    have := List.find?_some hfind
    simpa using this
  have hdb1 : set_title_if_unset db cid uid t1
      = { db with
            conversations :=
              db.conversations.map
                (fun x => if x.id = cid then { x with title := some t1 } else x) } := by
    unfold set_title_if_unset
    rw [hscoped]
    dsimp only
    rw [htitle]
    dsimp only [titleTruthy]
    unfold update_conversation_title
    rw [hfind]
    rfl
  have hg : ∀ a : ConversationRec,
      (fun x : ConversationRec => decide (x.id = cid ∧ x.user_id = uid))
          ((fun x => if x.id = cid then { x with title := some t1 } else x) a)
        = decide (a.id = cid ∧ a.user_id = uid) := by
    intro a
    by_cases h : a.id = cid
    · simp [h]
    · simp [h]
  have hlook1 : get_conversation_by_id (set_title_if_unset db cid uid t1) cid uid
      = some { c with title := some t1 } := by
    rw [hdb1]
    unfold get_conversation_by_id
    dsimp only
    rw [find?_map_of_pred _ _ _ hg]
    unfold get_conversation_by_id at hscoped
    rw [hscoped]
    simp [hcid]
  have hdb2 : set_title_if_unset (set_title_if_unset db cid uid t1) cid uid t2
      = set_title_if_unset db cid uid t1 := by
    conv_lhs => rw [set_title_if_unset]
    rw [hlook1]
    dsimp only [titleTruthy]
    simp [ht1]
  exact ⟨by rw [hdb2, hlook1], hdb2⟩

/-- Witness for C4: a concrete store with one untitled conversation; after
setting `"First"` and then `"Second"`, the conversation holds `"First"`. -/
theorem title_set_once_witness :
    get_conversation_by_id
        (set_title_if_unset
          (set_title_if_unset
            { conversations := [⟨0, "u1", "t1", none⟩], messages := [], nextId := 1 }
            0 "u1" "First")
          0 "u1" "Second")
        0 "u1"
      = some ⟨0, "u1", "t1", some "First"⟩ := by
  have h := title_set_once
    { conversations := [⟨0, "u1", "t1", none⟩], messages := [], nextId := 1 }
    0 "u1" "First" "Second" ⟨0, "u1", "t1", none⟩ (by rfl) (by rfl) rfl (by decide)
  exact h.1

/-! ## C5: conversation resolution -/

theorem uuidString_length (n : Nat) : (uuidString n).length = n + 1 := by
  show (List.replicate (n + 1) 'u').length = n + 1
  exact List.length_replicate (n + 1) 'u'

theorem uuidString_ne_succ (n m : Nat) (h : n ≠ m) :
    uuidString n ≠ uuidString m := by
  intro hcontra
  have := congrArg String.length hcontra
  rw [uuidString_length, uuidString_length] at this
  omega

/-- **C5.** Conversation resolution: a request with an empty thread id
creates a fresh conversation (`title = none`, `is_new = true`, a freshly
generated thread id), and two sequential empty-thread-id requests yield
two distinct conversations with distinct thread ids; a request with a
non-empty thread id matching an existing conversation of the same user
reuses it (`is_new = false`) and leaves the store untouched. -/
theorem conversation_resolution (w : WorldState) (uid tid : String)
    (c : ConversationRec) (htid : tid ≠ "")
    (hfound : get_conversation_by_thread_id w.db uid tid = some c) :
    (∀ w' u',
      (resolve_or_create w' u' "").isNew = true
      ∧ (resolve_or_create w' u' "").conv.title = none
      ∧ (resolve_or_create w' u' "").conv.user_id = u'
      ∧ (resolve_or_create (resolve_or_create w' u' "").w u' "").isNew = true
      ∧ (resolve_or_create w' u' "").conv.thread_id = uuidString w'.uuidCtr
      ∧ (resolve_or_create (resolve_or_create w' u' "").w u' "").conv.thread_id
          = uuidString (w'.uuidCtr + 1)
      ∧ (resolve_or_create w' u' "").conv.thread_id
          ≠ (resolve_or_create (resolve_or_create w' u' "").w u' "").conv.thread_id
      ∧ (resolve_or_create w' u' "").conv.id
          ≠ (resolve_or_create (resolve_or_create w' u' "").w u' "").conv.id)
    ∧ resolve_or_create w uid tid = ⟨c, false, tid, w⟩ := by
  constructor
  · intro w' u'
    refine ⟨rfl, rfl, rfl, rfl, rfl, rfl, ?_, ?_⟩
    · show uuidString w'.uuidCtr ≠ uuidString (w'.uuidCtr + 1)
      exact uuidString_ne_succ _ _ (by omega)
    · show w'.db.nextId ≠ w'.db.nextId + 1
      omega
  · unfold resolve_or_create
    simp only [if_pos htid, hfound]

/-- Witness for C5 at a concrete store holding conversation
`(u1, t1)`. -/
theorem conversation_resolution_witness :
    resolve_or_create
        { db := { conversations := [⟨0, "u1", "t1", none⟩], messages := [],
                  nextId := 1 } }
        "u1" "t1"
      = ⟨⟨0, "u1", "t1", none⟩, false, "t1",
         { db := { conversations := [⟨0, "u1", "t1", none⟩], messages := [],
                   nextId := 1 } }⟩ := by
  have h := conversation_resolution
    { db := { conversations := [⟨0, "u1", "t1", none⟩], messages := [],
              nextId := 1 } }
    "u1" "t1" ⟨0, "u1", "t1", none⟩ (by decide) (by rfl)
  exact h.2

/-! ## C8: message-list reads verify ownership -/

/-- **C8.** Reading a thread's messages verifies ownership: when every
conversation carrying the requested thread id belongs to someone other
than the requester (in particular when it is owned by a different user
`u2`), the route answers the constant not-found error — never the data,
and indistinguishable from the thread not existing; reading one's own
conversation that has no messages yields `ok` with an empty list; and any
returned message list is a sublist of the store's messages in insertion
(creation-time) order, containing exactly the messages of conversations
owned by the requester. -/
theorem message_list_ownership (db : DB) (u1 u2 t : String)
    (c : ConversationRec) (hmem : c ∈ db.conversations) (hthread : c.thread_id = t)
    (howner : c.user_id = u2) (hneq : u1 ≠ u2)
    (hforeign : ∀ x ∈ db.conversations, x.thread_id = t → x.user_id ≠ u1) :
    get_thread_conversation db u1 t = .notFound threadNotFoundDetail
    ∧ (∀ (db2 : DB) (c2 : ConversationRec) (u t2 : String),
        get_conversation_by_thread_id db2 u t2 = some c2 →
        (∀ m ∈ db2.messages, m.conversation_id ≠ c2.id) →
        get_thread_conversation db2 u t2 = .ok t2 (titleOr c2.title) [])
    ∧ (∀ (db3 : DB) (cid : Nat) (u : String),
        (get_conversation_messages db3 cid u none).Sublist db3.messages
        ∧ ∀ m, m ∈ get_conversation_messages db3 cid u none ↔
            (m ∈ db3.messages ∧ m.conversation_id = cid
              ∧ ∃ cc ∈ db3.conversations, cc.id = m.conversation_id
                  ∧ cc.user_id = u)) := by
  refine ⟨?_, ?_, ?_⟩
  · have hnone : get_conversation_by_thread_id db u1 t = none := by
      unfold get_conversation_by_thread_id
      rw [List.find?_eq_none]
      intro x hx
      simp only [decide_eq_true_eq, not_and]
      intro hu ht
      exact hforeign x hx ht hu
    unfold get_thread_conversation
    rw [hnone]
  · intro db2 c2 u t2 hfound hnomsg
    have hempty : get_conversation_messages db2 c2.id u none = [] := by
      unfold get_conversation_messages
      dsimp only
      rw [List.filter_eq_nil_iff]
      intro m hm
      simp only [decide_eq_true_eq, not_and]
      intro hconv
      exact absurd hconv (hnomsg m hm)
    unfold get_thread_conversation
    rw [hfound]
    dsimp only
    rw [hempty]
  · intro db3 cid u
    constructor
    · exact List.filter_sublist db3.messages
    · intro m
      unfold get_conversation_messages
      dsimp only
      rw [List.mem_filter]
      simp only [decide_eq_true_eq, List.any_eq_true, and_assoc]

/-- Witness for C8: user `u1` requesting `u2`'s thread gets the constant
not-found; `u2` reading their own empty thread gets an empty list. -/
theorem message_list_ownership_witness :
    get_thread_conversation
        { conversations := [⟨0, "u2", "t1", none⟩], messages := [], nextId := 1 }
        "u1" "t1"
      = .notFound threadNotFoundDetail
    ∧ get_thread_conversation
        { conversations := [⟨0, "u2", "t1", none⟩], messages := [], nextId := 1 }
        "u2" "t1"
      = .ok "t1" "New Conversation" [] := by
  have h := message_list_ownership
    { conversations := [⟨0, "u2", "t1", none⟩], messages := [], nextId := 1 }
    "u1" "u2" "t1" ⟨0, "u2", "t1", none⟩ (by decide)
    rfl rfl (by decide) (by intro x hx; fin_cases hx <;> simp)
  refine ⟨h.1, ?_⟩
  have h2 := h.2.1
    { conversations := [⟨0, "u2", "t1", none⟩], messages := [], nextId := 1 }
    ⟨0, "u2", "t1", none⟩ "u2" "t1" (by rfl) (by intro m hm; cases hm)
  exact h2

/-! ## Stream-loop invariants -/

/-- The token text event `e` contributes to the accumulated assistant
buffer (helpers.py:333-339): only a message event with truthy content and
successful extraction contributes. -/
def tokenText : EngineEvent → Option String
  | .message chunk =>
      match chunk.content with
      | none => none
      | some c =>
          if contentTruthy (some c) then extract_text_from_message chunk
          else none
  | .updates _ => none
  | .custom _ => none

/-- Concatenation of the non-discarded token deltas of a feed. -/
def feedText (evs : List EngineEvent) : String :=
  concatAll (evs.filterMap tokenText)

/-- A terminal client event (`done` or `error`). -/
def isTerminal : SSE → Bool
  | .done _ _ => true
  | .error _ _ _ => true
  | .text _ => false
  | .tool_update _ => false
  | .custom _ => false

/-- Store sanity: every row id is below the fresh-id supply. -/
def DBwf (db : DB) : Prop :=
  (∀ m ∈ db.messages, m.id < db.nextId)
    ∧ (∀ c ∈ db.conversations, c.id < db.nextId)

/-- The pending assistant row the loop keeps updating
(helpers.py:341-360). -/
def pendingAssistant (convId userMsgId mid : Nat) (content : String) :
    MessageRec :=
  { id := mid, conversation_id := convId, parent_message_id := some userMsgId,
    role := .assistant, content := content, status := .pending,
    finish_reason := none, latency_ms := none, metadata := none }

/-- Loop invariant: the store is sane, and the pending assistant row (once
created) holds exactly the accumulated buffer. -/
def accInv (convId userMsgId : Nat) (acc : StreamAcc) : Prop :=
  DBwf acc.db
    ∧ match acc.msgId with
      | none => acc.content = ""
      | some mid =>
          acc.db.messages.find? (fun m => m.id = mid)
            = some (pendingAssistant convId userMsgId mid acc.content)

/-- Running the stream loop on a feed from a fresh request accumulator. -/
def consume (convId userMsgId : Nat) (db : DB) (evs : List EngineEvent) :
    StreamAcc :=
  evs.foldl (streamStep convId userMsgId) { db := db }

theorem feedText_nil : feedText [] = "" := rfl

theorem feedText_cons (e : EngineEvent) (evs : List EngineEvent) :
    feedText (e :: evs) = (tokenText e).getD "" ++ feedText evs := by
  unfold feedText
  rw [List.filterMap_cons]
  cases h : tokenText e with
  | none =>
      rw [Option.getD_none, String.empty_append]
  | some t =>
      rw [Option.getD_some]
      rfl

theorem feedText_append (l1 l2 : List EngineEvent) :
    feedText (l1 ++ l2) = feedText l1 ++ feedText l2 := by
  induction l1 with
  | nil => rw [List.nil_append, feedText_nil, String.empty_append]
  | cons e rest ih =>
      rw [List.cons_append, feedText_cons, feedText_cons, ih,
        String.append_assoc]

/-- The `updates` inner fold only grows `toolCalls` and `events` (with
non-terminal events); buffer, pending id and store are untouched. -/
theorem updateStep_foldl_spec (pairs : List (String × NodeData))
    (acc : StreamAcc) :
    (pairs.foldl updateStep acc).content = acc.content
    ∧ (pairs.foldl updateStep acc).msgId = acc.msgId
    ∧ (pairs.foldl updateStep acc).db = acc.db
    ∧ ∃ new, (pairs.foldl updateStep acc).events = acc.events ++ new
        ∧ ∀ ev ∈ new, isTerminal ev = false := by
  induction pairs generalizing acc with
  | nil => exact ⟨rfl, rfl, rfl, [], by simp, by simp⟩
  | cons p rest ih =>
      rw [List.foldl_cons]
      have hstep : (updateStep acc p).content = acc.content
          ∧ (updateStep acc p).msgId = acc.msgId
          ∧ (updateStep acc p).db = acc.db
          ∧ ∃ new0, (updateStep acc p).events = acc.events ++ new0
              ∧ ∀ ev ∈ new0, isTerminal ev = false := by
        unfold updateStep
        cases p.2 with
        | nondict =>
            dsimp only
            exact ⟨rfl, rfl, rfl, [], by simp, by simp⟩
        | dict msgs =>
            dsimp only
            cases extract_tool_info p.1 msgs with
            | none =>
                dsimp only
                exact ⟨rfl, rfl, rfl, [], by simp, by simp⟩
            | some info =>
                dsimp only
                refine ⟨rfl, rfl, rfl, [SSE.tool_update info], rfl, ?_⟩
                intro ev hev
                rw [List.mem_singleton] at hev
                rw [hev]
                rfl
      obtain ⟨hc, hm, hd, new0, hev0, hnt0⟩ := hstep
      obtain ⟨hc', hm', hd', new1, hev1, hnt1⟩ := ih (updateStep acc p)
      refine ⟨hc' ▸ hc, hm' ▸ hm, hd' ▸ hd, new0 ++ new1, ?_, ?_⟩
      · rw [hev1, hev0, List.append_assoc]
      · intro ev hev
        rcases List.mem_append.mp hev with h | h
        · exact hnt0 ev h
        · exact hnt1 ev h

/-- One loop iteration only appends non-terminal client events. -/
theorem streamStep_events (convId userMsgId : Nat) (acc : StreamAcc)
    (e : EngineEvent) :
    ∃ new, (streamStep convId userMsgId acc e).events = acc.events ++ new
      ∧ ∀ ev ∈ new, isTerminal ev = false := by
  cases e with
  | updates pairs =>
      obtain ⟨_, _, _, new, hev, hnt⟩ := updateStep_foldl_spec pairs acc
      exact ⟨new, hev, hnt⟩
  | custom payload =>
      refine ⟨[SSE.custom payload], rfl, ?_⟩
      intro ev hev
      rw [List.mem_singleton] at hev
      rw [hev]
      rfl
  | message chunk =>
      obtain ⟨tc, tn, content⟩ := chunk
      cases content with
      | none => exact ⟨[], by simp [streamStep], by simp⟩
      | some c =>
          by_cases hc : contentTruthy (some c) = true
          · cases hx : extract_text_from_message ⟨tc, tn, some c⟩ with
            | none =>
                refine ⟨[SSE.text c], by simp [streamStep, hc, hx], ?_⟩
                intro ev hev
                rw [List.mem_singleton] at hev
                rw [hev]
                rfl
            | some t =>
                cases hmid : acc.msgId with
                | none =>
                    refine ⟨[SSE.text c],
                      by simp [streamStep, hc, hx, hmid], ?_⟩
                    intro ev hev
                    rw [List.mem_singleton] at hev
                    rw [hev]
                    rfl
                | some m =>
                    refine ⟨[SSE.text c],
                      by simp [streamStep, hc, hx, hmid], ?_⟩
                    intro ev hev
                    rw [List.mem_singleton] at hev
                    rw [hev]
                    rfl
          · simp only [Bool.not_eq_true] at hc
            exact ⟨[], by simp [streamStep, hc], by simp⟩

/-- The whole loop only appends non-terminal client events. -/
theorem streamFold_events (convId userMsgId : Nat) (evs : List EngineEvent)
    (acc : StreamAcc) :
    ∃ new, (evs.foldl (streamStep convId userMsgId) acc).events
        = acc.events ++ new
      ∧ ∀ ev ∈ new, isTerminal ev = false := by
  induction evs generalizing acc with
  | nil => exact ⟨[], by simp, by simp⟩
  | cons e rest ih =>
      rw [List.foldl_cons]
      obtain ⟨new0, hev0, hnt0⟩ := streamStep_events convId userMsgId acc e
      obtain ⟨new1, hev1, hnt1⟩ := ih (streamStep convId userMsgId acc e)
      refine ⟨new0 ++ new1, ?_, ?_⟩
      · rw [hev1, hev0, List.append_assoc]
      · intro ev hev
        rcases List.mem_append.mp hev with h | h
        · exact hnt0 ev h
        · exact hnt1 ev h

theorem find?_id_eq_none (l : List MessageRec) (n : Nat)
    (h : ∀ m ∈ l, m.id < n) :
    l.find? (fun m => m.id = n) = none := by
  rw [List.find?_eq_none]
  intro x hx
  simp only [decide_eq_true_eq]
  have := h x hx
  omega

theorem applyUpdate_id (content : Option String) (status : Option MessageStatus)
    (finish_reason : Option FinishReason) (latency_ms : Option Nat)
    (message_metadata : Option Metadata) (m : MessageRec) :
    (applyUpdate content status finish_reason latency_ms message_metadata m).id
      = m.id := rfl

theorem create_message_fst_id (db : DB) (conv : Nat) (role : MessageRole)
    (content : String) (status : MessageStatus) (fr : Option FinishReason)
    (lm : Option Nat) (mm : Option Metadata) (pm : Option Nat) :
    (create_message db conv role content status fr lm mm pm).1.id = db.nextId :=
  rfl

theorem DBwf_create_message (db : DB) (conv : Nat) (role : MessageRole)
    (content : String) (status : MessageStatus) (fr : Option FinishReason)
    (lm : Option Nat) (mm : Option Metadata) (pm : Option Nat) (h : DBwf db) :
    DBwf (create_message db conv role content status fr lm mm pm).2 := by
  obtain ⟨hm, hc⟩ := h
  constructor
  · intro m hmem
    rcases List.mem_append.mp hmem with hold | hnew
    · have := hm m hold
      show m.id < db.nextId + 1
      omega
    · rw [List.mem_singleton] at hnew
      rw [hnew]
      show db.nextId < db.nextId + 1
      omega
  · intro c hmem
    have := hc c hmem
    show c.id < db.nextId + 1
    omega

theorem DBwf_update_message (db : DB) (mid : Nat) (c : Option String)
    (s : Option MessageStatus) (f : Option FinishReason) (l : Option Nat)
    (mm : Option Metadata) (h : DBwf db) :
    DBwf (update_message db mid c s f l mm).2 := by
  unfold update_message
  cases hf : db.messages.find? (fun m => m.id = mid) with
  | none => exact h
  | some m0 =>
      obtain ⟨hm, hc⟩ := h
      refine ⟨?_, hc⟩
      intro m hmem
      rw [List.mem_map] at hmem
      obtain ⟨x, hx, hxm⟩ := hmem
      have hid : m.id = x.id := by
        rw [← hxm]
        by_cases hxid : x.id = mid
        · simp only [hxid, if_true, applyUpdate_id]
        · simp only [hxid, if_false]
      rw [hid]
      exact hm x hx

/-- Equation for `update_message` when the row is present. -/
theorem update_message_of_found (db : DB) (mid : Nat) (m0 : MessageRec)
    (c : Option String) (s : Option MessageStatus) (f : Option FinishReason)
    (l : Option Nat) (mm : Option Metadata)
    (hf : db.messages.find? (fun m => m.id = mid) = some m0) :
    (update_message db mid c s f l mm).2
      = { db with
            messages :=
              db.messages.map
                (fun x => if x.id = mid then applyUpdate c s f l mm x else x) } := by
  unfold update_message
  rw [hf]

/-- After an update keyed on `mid`, `find?` by `mid` sees the updated
row. -/
theorem find?_after_update (l : List MessageRec) (mid : Nat)
    (c : Option String) (s : Option MessageStatus) (f : Option FinishReason)
    (lt : Option Nat) (mm : Option Metadata) :
    (l.map (fun x => if x.id = mid then applyUpdate c s f lt mm x else x)).find?
        (fun m => m.id = mid)
      = (l.find? (fun m => m.id = mid)).map (applyUpdate c s f lt mm) := by
  have hg : ∀ a : MessageRec,
      (fun m : MessageRec => decide (m.id = mid))
          ((fun x => if x.id = mid then applyUpdate c s f lt mm x else x) a)
        = decide (a.id = mid) := by
    intro a
    by_cases hxid : a.id = mid
    · simp only [hxid, if_true, applyUpdate_id]
    · simp only [hxid, if_false]
  have := find?_map_of_pred
    (fun x => if x.id = mid then applyUpdate c s f lt mm x else x)
    (fun m : MessageRec => decide (m.id = mid)) l hg
  rw [this]
  cases hfind : l.find? (fun m => m.id = mid) with
  | none => rfl
  | some a =>
      have hpa : a.id = mid := by
        have := List.find?_some hfind
        simpa using this
      simp only [Option.map_some', hpa, if_true]

/-- One loop iteration: the invariant is preserved and the buffer grows by
exactly the event's non-discarded token text. -/
theorem streamStep_spec (convId userMsgId : Nat) (acc : StreamAcc)
    (e : EngineEvent) (hinv : accInv convId userMsgId acc) :
    accInv convId userMsgId (streamStep convId userMsgId acc e)
    ∧ (streamStep convId userMsgId acc e).content
        = acc.content ++ (tokenText e).getD "" := by
  cases e with
  | updates pairs =>
      obtain ⟨hc, hm, hd, _⟩ := updateStep_foldl_spec pairs acc
      have hred : streamStep convId userMsgId acc (.updates pairs)
          = pairs.foldl updateStep acc := rfl
      constructor
      · rw [hred]
        unfold accInv
        rw [hc, hm, hd]
        exact hinv
      · rw [hred, hc]
        show acc.content = acc.content ++ ""
        rw [String.append_empty]
  | custom payload =>
      refine ⟨hinv, ?_⟩
      show acc.content = acc.content ++ ""
      rw [String.append_empty]
  | message chunk =>
      obtain ⟨tc, tn, content⟩ := chunk
      cases content with
      | none =>
          refine ⟨hinv, ?_⟩
          show acc.content = acc.content ++ ""
          rw [String.append_empty]
      | some c =>
          by_cases hc : contentTruthy (some c) = true
          · cases hx : extract_text_from_message ⟨tc, tn, some c⟩ with
            | none =>
                have hstep : streamStep convId userMsgId acc
                    (.message ⟨tc, tn, some c⟩)
                    = { acc with events := acc.events ++ [SSE.text c] } := by
                  simp [streamStep, hc, hx]
                have htok : tokenText (.message ⟨tc, tn, some c⟩) = none := by
                  simp [tokenText, hc, hx]
                rw [hstep, htok]
                refine ⟨hinv, ?_⟩
                show acc.content = acc.content ++ ""
                rw [String.append_empty]
            | some t =>
                have htok : tokenText (.message ⟨tc, tn, some c⟩) = some t := by
                  simp [tokenText, hc, hx]
                cases hmid : acc.msgId with
                | none =>
                    have hstep : streamStep convId userMsgId acc
                        (.message ⟨tc, tn, some c⟩)
                        = { acc with
                              content := acc.content ++ t,
                              msgId := some acc.db.nextId,
                              events := acc.events ++ [SSE.text c],
                              db := (create_message acc.db convId .assistant
                                (acc.content ++ t) .pending none none none
                                (some userMsgId)).2 } := by
                      simp [streamStep, hc, hx, hmid, create_message_fst_id]
                    rw [hstep, htok]
                    obtain ⟨hwf, hsync⟩ := hinv
                    refine ⟨⟨DBwf_create_message _ _ _ _ _ _ _ _ _ hwf, ?_⟩, rfl⟩
                    show ((acc.db.messages
                        ++ [pendingAssistant convId userMsgId acc.db.nextId
                              (acc.content ++ t)]).find?
                          (fun m => m.id = acc.db.nextId))
                      = some (pendingAssistant convId userMsgId acc.db.nextId
                          (acc.content ++ t))
                    rw [List.find?_append,
                      find?_id_eq_none acc.db.messages acc.db.nextId hwf.1]
                    simp [pendingAssistant]
                | some m =>
                    obtain ⟨hwf, hsync⟩ := hinv
                    rw [hmid] at hsync
                    have hsync2 : acc.db.messages.find? (fun x => x.id = m)
                        = some (pendingAssistant convId userMsgId m acc.content) :=
                      hsync
                    have hstep : streamStep convId userMsgId acc
                        (.message ⟨tc, tn, some c⟩)
                        = { acc with
                              content := acc.content ++ t,
                              msgId := some m,
                              events := acc.events ++ [SSE.text c],
                              db := (update_message acc.db m
                                (some (acc.content ++ t)) none none none
                                none).2 } := by
                      simp [streamStep, hc, hx, hmid]
                    rw [hstep, htok]
                    refine ⟨⟨DBwf_update_message _ _ _ _ _ _ _ hwf, ?_⟩, rfl⟩
                    show ((update_message acc.db m (some (acc.content ++ t))
                        none none none none).2).messages.find?
                          (fun x => x.id = m)
                      = some (pendingAssistant convId userMsgId m
                          (acc.content ++ t))
                    rw [update_message_of_found acc.db m _ _ _ _ _ _ hsync2]
                    show (acc.db.messages.map
                        (fun x => if x.id = m then
                          applyUpdate (some (acc.content ++ t)) none none none
                            none x
                        else x)).find? (fun x => x.id = m)
                      = some (pendingAssistant convId userMsgId m
                          (acc.content ++ t))
                    rw [find?_after_update, hsync2]
                    rfl
          · have hstep : streamStep convId userMsgId acc
                (.message ⟨tc, tn, some c⟩) = acc := by
              simp only [Bool.not_eq_true] at hc
              simp [streamStep, hc]
            have htok : tokenText (.message ⟨tc, tn, some c⟩) = none := by
              simp only [Bool.not_eq_true] at hc
              simp [tokenText, hc]
            rw [hstep, htok]
            refine ⟨hinv, ?_⟩
            show acc.content = acc.content ++ ""
            rw [String.append_empty]

/-- The whole loop: invariant preserved, buffer grown by exactly the
concatenated non-discarded token deltas. -/
theorem streamFold_spec (convId userMsgId : Nat) (evs : List EngineEvent)
    (acc : StreamAcc) (hinv : accInv convId userMsgId acc) :
    accInv convId userMsgId (evs.foldl (streamStep convId userMsgId) acc)
    ∧ (evs.foldl (streamStep convId userMsgId) acc).content
        = acc.content ++ feedText evs := by
  induction evs generalizing acc with
  | nil =>
      refine ⟨hinv, ?_⟩
      show acc.content = acc.content ++ ""
      rw [String.append_empty]
  | cons e rest ih =>
      rw [List.foldl_cons]
      obtain ⟨hinv', hcont⟩ := streamStep_spec convId userMsgId acc e hinv
      obtain ⟨hinvF, hcontF⟩ := ih (streamStep convId userMsgId acc e) hinv'
      refine ⟨hinvF, ?_⟩
      rw [hcontF, hcont, feedText_cons, String.append_assoc]

/-! ## C1: persisted content is the concatenated prefix of token deltas -/

/-- **C1.** For every request context, sane store, engine feed and `N`:
after consuming the first `N` events the accumulated buffer equals the
concatenation of the non-discarded token deltas among them; whenever a
pending assistant message exists, its persisted content is exactly that
concatenation (the full accumulated buffer, not a delta); and the buffer
after `N` events is a prefix of the final buffer, so successive persisted
contents form a monotonically non-decreasing chain of prefixes of the
final text. -/
theorem persisted_content_prefix_monotone (convId userMsgId : Nat) (db : DB)
    (feed : List EngineEvent) (N : Nat) (hwf : DBwf db) :
    (consume convId userMsgId db (feed.take N)).content
        = feedText (feed.take N)
    ∧ (∀ mid, (consume convId userMsgId db (feed.take N)).msgId = some mid →
        ((consume convId userMsgId db (feed.take N)).db.messages.find?
            (fun m => m.id = mid)).map MessageRec.content
          = some (feedText (feed.take N)))
    ∧ (∃ rest, (consume convId userMsgId db feed).content
        = (consume convId userMsgId db (feed.take N)).content ++ rest) := by
  have hinv0 : accInv convId userMsgId ({ db := db } : StreamAcc) := ⟨hwf, rfl⟩
  obtain ⟨hinvN, hcontN⟩ :=
    streamFold_spec convId userMsgId (feed.take N) { db := db } hinv0
  have hcont : (consume convId userMsgId db (feed.take N)).content
      = feedText (feed.take N) := by
    have h2 : (consume convId userMsgId db (feed.take N)).content
        = "" ++ feedText (feed.take N) := hcontN
    rw [String.empty_append] at h2
    exact h2
  refine ⟨hcont, ?_, ?_⟩
  · intro mid hmid
    obtain ⟨_, hsync⟩ := hinvN
    have hmid' : ((feed.take N).foldl (streamStep convId userMsgId)
        ({ db := db } : StreamAcc)).msgId = some mid := hmid
    rw [hmid'] at hsync
    have hsync3 : (consume convId userMsgId db (feed.take N)).db.messages.find?
        (fun m => m.id = mid)
        = some (pendingAssistant convId userMsgId mid
            (consume convId userMsgId db (feed.take N)).content) := hsync
    rw [hsync3, hcont]
    rfl
  · have hsplit : consume convId userMsgId db feed
        = (feed.drop N).foldl (streamStep convId userMsgId)
            (consume convId userMsgId db (feed.take N)) := by
      show feed.foldl (streamStep convId userMsgId) { db := db }
          = (feed.drop N).foldl (streamStep convId userMsgId)
              ((feed.take N).foldl (streamStep convId userMsgId) { db := db })
      rw [← List.foldl_append, List.take_append_drop]
    obtain ⟨_, hcontF⟩ :=
      streamFold_spec convId userMsgId (feed.drop N)
        (consume convId userMsgId db (feed.take N)) hinvN
    exact ⟨feedText (feed.drop N), by rw [hsplit, hcontF]⟩

/-- Witness feed for C1: the spec's example deltas
`["Hel", "lo wor", "ld"]`. -/
def c1feed : List EngineEvent :=
  [.message { content := some (.str "Hel") },
   .message { content := some (.str "lo wor") },
   .message { content := some (.str "ld") }]

/-- Witness for C1 at the spec's example: after 2 of 3 deltas the buffer
and the persisted pending content equal `"Hello wor"`, a prefix of the
final `"Hello world"`. -/
theorem persisted_content_prefix_monotone_witness :
    (consume 0 5 {} (c1feed.take 2)).content = feedText (c1feed.take 2)
    ∧ (∀ mid, (consume 0 5 {} (c1feed.take 2)).msgId = some mid →
        ((consume 0 5 {} (c1feed.take 2)).db.messages.find?
            (fun m => m.id = mid)).map MessageRec.content
          = some (feedText (c1feed.take 2)))
    ∧ (∃ rest, (consume 0 5 {} c1feed).content
        = (consume 0 5 {} (c1feed.take 2)).content ++ rest) :=
  persisted_content_prefix_monotone 0 5 {} c1feed 2 (by unfold DBwf; decide)

/-! ## C2: exactly one terminal event, always last -/

theorem finalizeOk_fst (convId userMsgId : Nat) (isNew : Bool)
    (ftid uid msg : String) (tresp : Option String) (acc : StreamAcc) :
    ∃ tid ttl, (finalizeOk convId userMsgId isNew ftid uid msg tresp acc).1
      = acc.events ++ [SSE.done tid ttl] := by
  unfold finalizeOk
  exact ⟨_, _, rfl⟩

theorem finalizeErr_fst (err uid ftid : String) (convId : Nat) (b1 b2 : Bool)
    (acc : StreamAcc) :
    ∃ tid ttl, (finalizeErr err uid ftid convId b1 b2 acc).1
      = acc.events ++ [SSE.error err tid ttl] := by
  unfold finalizeErr
  exact ⟨_, _, rfl⟩

/-- The loop's events, from the empty initial event list. -/
theorem streamAccOf_events (inp : StreamInput) (w : WorldState) :
    ∃ new, (streamAccOf inp w).events = new
      ∧ ∀ ev ∈ new, isTerminal ev = false := by
  obtain ⟨new, hev, hnt⟩ :=
    streamFold_events (convResOf inp w).conv.id (userMsgOf inp w).1.id
      inp.feed { db := (userMsgOf inp w).2 }
  have hev2 : (streamAccOf inp w).events = [] ++ new := hev
  rw [List.nil_append] at hev2
  exact ⟨new, hev2, hnt⟩

/-- **C2.** Every request's client event stream ends with exactly one
terminal event (`done` on normal feed completion, `error` on feed
failure): the terminal event is last, and no other emitted event is
terminal. -/
theorem terminal_event_exactly_once (inp : StreamInput) (w : WorldState) :
    ∃ evs term, (stream_agent_response inp w).1 = evs ++ [term]
      ∧ isTerminal term = true
      ∧ ∀ e ∈ evs, isTerminal e = false := by
  obtain ⟨new, hev, hnt⟩ := streamAccOf_events inp w
  unfold stream_agent_response
  cases hfe : inp.feedError with
  | none =>
      dsimp only
      obtain ⟨tid, ttl, hfin⟩ :=
        finalizeOk_fst (convResOf inp w).conv.id (userMsgOf inp w).1.id
          (convResOf inp w).isNew (convResOf inp w).final_thread_id
          inp.user_id inp.message inp.titleResp (streamAccOf inp w)
      refine ⟨new, SSE.done tid ttl, ?_, rfl, hnt⟩
      rw [hfin, hev]
  | some err =>
      dsimp only
      obtain ⟨tid, ttl, hfin⟩ :=
        finalizeErr_fst err inp.user_id (convResOf inp w).final_thread_id
          (convResOf inp w).conv.id inp.errUpdateFails inp.errLookupFails
          (streamAccOf inp w)
      refine ⟨new, SSE.error err tid ttl, ?_, rfl, hnt⟩
      rw [hfin, hev]

/-! ## C6: events with no actionable content -/

/-- A request whose engine feed consists of a single whitespace-only token
event. -/
def c6input : StreamInput :=
  { message := "hi", thread_id := "", user_id := "u1",
    feed := [.message { content := some (.str " ") }] }

/-- **C6 counterexample.** A whitespace-only token event is not persisted,
but a client `text` event carrying the raw whitespace IS emitted
(helpers.py:362 sits outside the `if chunk_text:` guard): the request's
event stream contains `text " "`, while the store holds only the user
message row. -/
theorem whitespace_token_event_cex :
    (stream_agent_response c6input {}).1
        = [SSE.text (.str " "), SSE.done "u" "New Conversation"]
    ∧ (stream_agent_response c6input {}).2.db.messages.map MessageRec.role
        = [.user] :=
  ⟨rfl, rfl⟩

/-- **C6 amended.** Token events with no actionable content are never
persisted, but only falsy (empty) content suppresses the client event: a
message event with missing or falsy content leaves the accumulator — and
hence the store — completely untouched and emits nothing; a message event
with truthy content whose extraction is discarded (whitespace-only text,
or a tool/function message) performs no persistence and no buffer change,
yet still emits a `text` event carrying the raw content.  Extraction
discards every message with truthy `tool_calls`, and every string content
that strips to empty. -/
theorem discarded_token_handling :
    (∀ (convId userMsgId : Nat) (acc : StreamAcc)
        (tc : Option (List ToolCallRef)) (tn : String),
      streamStep convId userMsgId acc (.message ⟨tc, tn, none⟩) = acc)
    ∧ (∀ (convId userMsgId : Nat) (acc : StreamAcc)
        (tc : Option (List ToolCallRef)) (tn : String) (c : MsgContent),
      contentTruthy (some c) = false →
      streamStep convId userMsgId acc (.message ⟨tc, tn, some c⟩) = acc)
    ∧ (∀ (convId userMsgId : Nat) (acc : StreamAcc)
        (tc : Option (List ToolCallRef)) (tn : String) (c : MsgContent),
      contentTruthy (some c) = true →
      extract_text_from_message ⟨tc, tn, some c⟩ = none →
      streamStep convId userMsgId acc (.message ⟨tc, tn, some c⟩)
        = { acc with events := acc.events ++ [SSE.text c] })
    ∧ (∀ m : EngineMessage, toolCallsTruthy m = true →
        extract_text_from_message m = none)
    ∧ (∀ (m : EngineMessage) (s : String), m.content = some (.str s) →
        strTruthy (pyStrip s) = false → extract_text_from_message m = none) := by
  refine ⟨fun convId userMsgId acc tc tn => rfl, ?_, ?_, ?_, ?_⟩
  · intro convId userMsgId acc tc tn c hc
    simp [streamStep, hc]
  · intro convId userMsgId acc tc tn c hc hx
    simp [streamStep, hc, hx]
  · intro m h
    simp [extract_text_from_message, h]
  · intro m s hm hws
    unfold extract_text_from_message
    split
    · rfl
    · split
      · rfl
      · rw [hm]
        dsimp only
        rw [hws]
        rfl

/-- Witness for the amended C6: the whitespace token emits a raw `text`
event without touching the accumulator state, and a tool-call message
extracts to nothing. -/
theorem discarded_token_handling_witness :
    streamStep 0 1 { db := {} }
        (.message ⟨none, "AIMessageChunk", some (.str " ")⟩)
      = { ({ db := {} } : StreamAcc) with events := [SSE.text (.str " ")] }
    ∧ extract_text_from_message
        ⟨some [⟨"t"⟩], "AIMessageChunk", some (.str "hi")⟩ = none := by
  have h := discarded_token_handling
  constructor
  · exact h.2.2.1 0 1 { db := {} } none "AIMessageChunk" (.str " ")
      (by decide) (by decide)
  · exact h.2.2.2.1 ⟨some [⟨"t"⟩], "AIMessageChunk", some (.str "hi")⟩
      (by decide)

/-! ## C3: the error path preserves partial progress -/

theorem DBwf_create_conversation (db : DB) (uid tid : String)
    (title : Option String) (h : DBwf db) :
    DBwf (create_conversation db uid tid title).2 := by
  obtain ⟨hm, hc⟩ := h
  constructor
  · intro m hmem
    have := hm m hmem
    show m.id < db.nextId + 1
    omega
  · intro c hmem
    rcases List.mem_append.mp hmem with hold | hnew
    · have := hc c hold
      show c.id < db.nextId + 1
      omega
    · rw [List.mem_singleton] at hnew
      rw [hnew]
      show db.nextId < db.nextId + 1
      omega

theorem DBwf_resolve_or_create (w : WorldState) (uid tid : String)
    (h : DBwf w.db) : DBwf (resolve_or_create w uid tid).w.db := by
  unfold resolve_or_create
  by_cases ht : tid ≠ ""
  · simp only [if_pos ht]
    cases hex : get_conversation_by_thread_id w.db uid tid with
    | some c => exact h
    | none => exact DBwf_create_conversation _ _ _ _ h
  · simp only [if_neg ht]
    exact DBwf_create_conversation _ _ _ _ h

/-- **C3.** When the engine feed raises after emitting tokens: unless the
error-recording update itself fails, the pending assistant message is
persisted with status `error`, finish reason `error`, its content equal to
the full accumulated (not discarded) token text, and metadata carrying the
error text; and — regardless of whether the recording update or the
context lookup fails — the stream's terminal event is an `error` event
whose thread id and title come from the looked-up conversation, falling
back to the request's resolved thread id and `"New Conversation"` when
the lookup fails or finds nothing. -/
theorem error_path_records_progress (inp : StreamInput) (w : WorldState)
    (err : String) (hfe : inp.feedError = some err) (hwf : DBwf w.db)
    (htok : feedText inp.feed ≠ "") :
    (inp.errUpdateFails = false →
      ∃ mid, (stream_agent_response inp w).2.db.messages.find?
          (fun m => m.id = mid)
        = some { id := mid,
                 conversation_id := (convResOf inp w).conv.id,
                 parent_message_id := some (userMsgOf inp w).1.id,
                 role := .assistant,
                 content := feedText inp.feed,
                 status := .error,
                 finish_reason := some .error,
                 latency_ms := none,
                 metadata := some ⟨none, some err⟩ })
    ∧ (∃ pre tid ttl,
        (stream_agent_response inp w).1 = pre ++ [SSE.error err tid ttl]
        ∧ (inp.errLookupFails = true →
            tid = (convResOf inp w).final_thread_id
              ∧ ttl = "New Conversation")
        ∧ (inp.errLookupFails = false →
            (match get_conversation_by_id (stream_agent_response inp w).2.db
                (convResOf inp w).conv.id inp.user_id with
             | some c => tid = c.thread_id ∧ ttl = titleOr c.title
             | none => tid = (convResOf inp w).final_thread_id
                 ∧ ttl = "New Conversation"))) := by
  have hinv0 : accInv (convResOf inp w).conv.id (userMsgOf inp w).1.id
      ({ db := (userMsgOf inp w).2 } : StreamAcc) :=
    ⟨DBwf_create_message _ _ _ _ _ _ _ _ _
        (DBwf_resolve_or_create w inp.user_id inp.thread_id hwf), rfl⟩
  obtain ⟨hinvF, hcontF⟩ :=
    streamFold_spec (convResOf inp w).conv.id (userMsgOf inp w).1.id
      inp.feed { db := (userMsgOf inp w).2 } hinv0
  have hinvFA : accInv (convResOf inp w).conv.id (userMsgOf inp w).1.id
      (streamAccOf inp w) := hinvF
  have hcont : (streamAccOf inp w).content = feedText inp.feed := by
    have h2 : (streamAccOf inp w).content = "" ++ feedText inp.feed := hcontF
    rw [String.empty_append] at h2
    exact h2
  obtain ⟨hwfF, hsync⟩ := hinvFA
  cases hm : (streamAccOf inp w).msgId with
  | none =>
      exfalso
      rw [hm] at hsync
      have hempty : (streamAccOf inp w).content = "" := hsync
      rw [hcont] at hempty
      exact htok hempty
  | some mid =>
      rw [hm] at hsync
      have hsyncF : (streamAccOf inp w).db.messages.find? (fun x => x.id = mid)
          = some (pendingAssistant (convResOf inp w).conv.id
              (userMsgOf inp w).1.id mid (streamAccOf inp w).content) := hsync
      have hdb : (stream_agent_response inp w).2.db
          = (if inp.errUpdateFails then (streamAccOf inp w).db
             else (update_message (streamAccOf inp w).db mid none (some .error)
               (some .error) none (some ⟨none, some err⟩)).2) := by
        unfold stream_agent_response finalizeErr
        rw [hfe]
        dsimp only
        rw [hm]
      refine ⟨?_, ?_⟩
      · intro hupd
        refine ⟨mid, ?_⟩
        rw [hdb, hupd]
        simp only [Bool.false_eq_true, if_false]
        rw [update_message_of_found _ _ _ _ _ _ _ _ hsyncF]
        show ((streamAccOf inp w).db.messages.map
            (fun x => if x.id = mid then
              applyUpdate none (some .error) (some .error) none
                (some ⟨none, some err⟩) x
            else x)).find? (fun m => m.id = mid) = _
        rw [find?_after_update, hsyncF, ← hcont]
        rfl
      · cases hlk : inp.errLookupFails with
        | true =>
            refine ⟨(streamAccOf inp w).events,
              (convResOf inp w).final_thread_id, "New Conversation", ?_,
              fun _ => ⟨rfl, rfl⟩, fun hc2 => by cases hc2⟩
            unfold stream_agent_response finalizeErr
            rw [hfe]
            dsimp only
            rw [hlk]
            rfl
        | false =>
            cases hlook : get_conversation_by_id
                (stream_agent_response inp w).2.db
                (convResOf inp w).conv.id inp.user_id with
            | some c =>
                rw [hdb] at hlook
                refine ⟨(streamAccOf inp w).events, c.thread_id,
                  titleOr c.title, ?_,
                  fun hc2 => absurd hc2 (by decide), ?_⟩
                · unfold stream_agent_response finalizeErr
                  rw [hfe]
                  dsimp only
                  rw [hm, hlk]
                  dsimp only
                  rw [hlook]
                  rfl
                · intro hc2
                  exact ⟨rfl, rfl⟩
            | none =>
                rw [hdb] at hlook
                refine ⟨(streamAccOf inp w).events,
                  (convResOf inp w).final_thread_id, "New Conversation", ?_,
                  fun hc2 => absurd hc2 (by decide), ?_⟩
                · unfold stream_agent_response finalizeErr
                  rw [hfe]
                  dsimp only
                  rw [hm, hlk]
                  dsimp only
                  rw [hlook]
                  rfl
                · intro hc2
                  exact ⟨rfl, rfl⟩

/-- The spec's example failing request: one token `"partial answer"`, then
the feed raises `"boom"`. -/
def c3input : StreamInput :=
  { message := "hi", thread_id := "", user_id := "u1",
    feed := [.message { content := some (.str "partial answer") }],
    feedError := some "boom" }

/-- Witness for C3 at the spec's example: the persisted assistant message
ends in status `error` with content `"partial answer"` and the error text
in its metadata. -/
theorem error_path_records_progress_witness :
    ∃ mid, (stream_agent_response c3input {}).2.db.messages.find?
        (fun m => m.id = mid)
      = some { id := mid,
               conversation_id := (convResOf c3input {}).conv.id,
               parent_message_id := some (userMsgOf c3input {}).1.id,
               role := .assistant,
               content := feedText c3input.feed,
               status := .error,
               finish_reason := some .error,
               latency_ms := none,
               metadata := some ⟨none, some "boom"⟩ } :=
  (error_path_records_progress c3input {} "boom" rfl (by unfold DBwf; decide)
    (by decide)).1 rfl

end Finance
